import Mathlib

/-!
Shallow embedding of the taiwan-stock-monitor downloaders
(src/downloader_us.py, src/downloader_hk.py, src/downloader_kr.py,
src/downloader_cn.py) and proofs about the spec's claims.

External effects are modelled by explicit oracles:
  * the list-cache file state is a `CacheState`;
  * each network query's outcome is a parameter (`Option` data, or a
    `FetchOutcome` that can carry a raised exception's message);
  * `time.sleep` calls are recorded as a trace of `SleepRange`s, in tenths
    of a second (so `random.uniform(0.4, 1.2)` is the range `⟨4, 12⟩`);
  * raising past a function's boundary is an `Except` error.
-/

/-!
String helpers, written by structural recursion over `String.data` so that
closed instances compute inside `decide` / `rfl` proofs (the iterator-based
core `String` functions do not kernel-reduce).
-/

/-- `leadsWith p l` : `p` is an initial segment of `l`. -/
def leadsWith : List Char → List Char → Bool
  | [], _ => true
  | _ :: _, [] => false
  | a :: as, b :: bs => a = b && leadsWith as bs

/-- `l` ends with the segment `suf`. -/
def trailsWith (suf l : List Char) : Bool :=
  leadsWith suf.reverse l.reverse

/-- Python `needle in hay` for a non-empty needle, on character lists. -/
def containsSegment (needle : List Char) : List Char → Bool
  | [] => needle.isEmpty
  | c :: cs => leadsWith needle (c :: cs) || containsSegment needle cs

/-- Python `needle in hay` substring test (used for `"Rate limited" in str(e)`). -/
def containsSubstr (needle hay : String) : Bool :=
  containsSegment needle.data hay.data

/-- Split at the first occurrence of `sep`, when there is one. -/
def splitFirst (sep : Char) : List Char → Option (List Char × List Char)
  | [] => none
  | c :: cs =>
      if c = sep then some ([], cs)
      else
        match splitFirst sep cs with
        | none => none
        | some (a, b) => some (c :: a, b)

/-- Python `item.split('&', 1)` unpacked into two names: `none` models the
`ValueError` raised when the separator is absent. -/
def splitAmp (s : String) : Option (String × String) :=
  match splitFirst '&' s.data with
  | none => none
  | some (a, b) => some (String.mk a, String.mk b)

/-- Python `s.split(sep)` for a one-character separator (no limit). -/
def splitOnChar (sep : Char) : List Char → List (List Char)
  | [] => [[]]
  | c :: cs =>
      let r := splitOnChar sep cs
      if c = sep then [] :: r
      else
        match r with
        | [] => [[c]]
        | g :: gs => (c :: g) :: gs

/-- Python `s.replace(pat, repl)` for a non-empty `pat`: replace every
non-overlapping occurrence, scanning left to right.  The fuel argument
(instantiated with the input's length) only makes the recursion structural. -/
def replaceSeg (pat repl : List Char) : Nat → List Char → List Char
  | _, [] => []
  | 0, l => l
  | fuel + 1, c :: cs =>
      if leadsWith pat (c :: cs) && !pat.isEmpty then
        repl ++ replaceSeg pat repl fuel (cs.drop (pat.length - 1))
      else c :: replaceSeg pat repl fuel cs

/-- Python `s.replace(pat, repl)` (for the non-empty patterns used here). -/
def strReplace (s pat repl : String) : String :=
  String.mk (replaceSeg pat.data repl.data s.data.length s.data)

/-- Python `s.lower()`. -/
def strToLower (s : String) : String :=
  String.mk (s.data.map Char.toLower)

/-- Python `s.upper()`. -/
def strToUpper (s : String) : String :=
  String.mk (s.data.map Char.toUpper)

instance {ε α : Type} [DecidableEq ε] [DecidableEq α] : DecidableEq (Except ε α) :=
  fun a b =>
    match a, b with
    | .error e, .error f =>
        if h : e = f then .isTrue (by rw [h]) else .isFalse (by simp [h])
    | .error _, .ok _ => .isFalse (by simp)
    | .ok _, .error _ => .isFalse (by simp)
    | .ok x, .ok y =>
        if h : x = y then .isTrue (by rw [h]) else .isFalse (by simp [h])

/-- State of a persisted JSON list-cache file.  `unreadable` models a file
that exists but whose open/`json.load` raises. -/
inductive CacheState where
  | missing
  | unreadable
  | readable (sameDay : Bool) (data : List String)
deriving Repr, DecidableEq

/-- On-disk output artifact metadata: `size` in bytes, `age` in seconds
since its mtime. -/
structure FileInfo where
  size : Nat
  age : Nat
deriving Repr, DecidableEq

/-- Outcome of one `tk.history(...)` call: a returned frame (`none` inside
models `hist is None`, `some n` a frame with `n` rows), or a raised
exception carrying `str(e)`. -/
inductive FetchOutcome where
  | history (rows : Option Nat)
  | raised (msg : String)
deriving Repr, DecidableEq

/-- A `time.sleep` of a value drawn from `[lo, hi]`, in tenths of a second. -/
structure SleepRange where
  lo : Nat
  hi : Nat
deriving Repr, DecidableEq

/-- What one download job did: its terminal `status` string, the sleeps it
performed (in order), and how many provider fetch calls it issued. -/
structure JobTrace where
  status : String
  sleeps : List SleepRange
  fetchCalls : Nat
deriving Repr, DecidableEq

namespace US

/-- `get_full_stock_list` in src/downloader_us.py (lines 38-77).  The two
per-site fetch blocks are each wrapped in `try/except` in the source, so a
site outcome is `none` (raised, logged, skipped) or `some rows` (the
`"ticker&name"` strings that site contributed).  Returns the resulting list
together with the cache state after the call: the cache file is rewritten
only on the `len(final_list) >= threshold` branch (lines 72-74).
Python's `list(set(all_rows))` is modelled by `List.dedup` (set semantics;
the source's iteration order is unspecified anyway). -/
def get_full_stock_list (cache : CacheState) (site1 site2 : Option (List String)) :
    List String × CacheState :=
  let cached : Option (List String) :=
    match cache with
    | .readable true data => if 3000 ≤ data.length then some data else none
    | _ => none
  match cached with
  | some data => (data, cache)
  | none =>
      let all_rows := site1.getD [] ++ site2.getD []
      let final_list := all_rows.dedup
      if 3000 ≤ final_list.length then (final_list, .readable true final_list)
      else (final_list, cache)

end US

namespace HK

/-- The `for i in range(max_retries)` fetch loop of `get_full_stock_list`
in src/downloader_hk.py (lines 65-102).  Each attempt either raises inside
its `try` (`none`: logged, retried) or produces the pre-dedup `"code&name"`
strings; a below-threshold result does not return and the loop retries. -/
def fetch_loop (attempts : List (Option (List String))) : Option (List String) :=
  match attempts with
  | [] => none
  | some rows :: rest =>
      let final_list := rows.dedup
      if 2000 ≤ final_list.length then some final_list else fetch_loop rest
  | none :: rest => fetch_loop rest

/-- `get_full_stock_list` in src/downloader_hk.py (lines 46-108).  The
same-day cache read at the top is guarded by `try/except: pass`, but the
historical-fallback read at lines 104-107 is NOT guarded: an existing but
unreadable cache file makes `json.load` raise past the boundary, which is
the `.error` case.  A successful fetch meeting the threshold rewrites the
cache (lines 93-95); with no cache at all the function returns `[]`. -/
def get_full_stock_list (cache : CacheState) (attempts : List (Option (List String))) :
    Except Unit (List String × CacheState) :=
  let cached : Option (List String) :=
    match cache with
    | .readable true data => if 2000 ≤ data.length then some data else none
    | _ => none
  match cached with
  | some data => .ok (data, cache)
  | none =>
      match fetch_loop attempts with
      | some final_list => .ok (final_list, .readable true final_list)
      | none =>
          match cache with
          | .missing => .ok ([], cache)
          | .unreadable => .error ()
          | .readable _ data => .ok (data, cache)

end HK

/-- Shallow model of a pandas DataFrame at the column-shape level, which is
the level at which `standardize_df` manipulates it: the name the index gets
when `reset_index` turns it into the leading column, the data column
labels, the row count, and whether the date-typed values carry a timezone. -/
structure DataFrame where
  idxName : String
  cols : List String
  nrows : Nat
  dateTzAware : Bool
deriving Repr, DecidableEq

/-- `pd.DataFrame()`: no columns, no rows. -/
def emptyDF : DataFrame := ⟨"", [], 0, false⟩

/-- Pandas `df.empty`: true when either axis has length 0. -/
def DataFrame.isEmptyDF (d : DataFrame) : Bool :=
  d.nrows = 0 || d.cols.isEmpty

namespace KR

/-- The required canonical columns (`req` in src/downloader_kr.py line 56). -/
def reqCols : List String := ["date", "open", "high", "low", "close", "volume"]

/-- `standardize_df` in src/downloader_kr.py (lines 47-57): `None`/empty
input gives an empty frame; otherwise `reset_index` inserts the index as
the leading column, column labels are lowercased, a missing `date` column
gives an empty frame, `pd.to_datetime(..., utc=True).dt.tz_localize(None)`
makes the date values timezone-naive, and the frame is either projected to
exactly `reqCols` or replaced by an empty frame. -/
def standardize_df (df : Option DataFrame) : DataFrame :=
  match df with
  | none => emptyDF
  | some d =>
      if d.isEmptyDF then emptyDF
      else
        let cols := (d.idxName :: d.cols).map strToLower
        if "date" ∈ cols then
          if reqCols.all (fun c => c ∈ cols) then
            { idxName := "", cols := reqCols, nrows := d.nrows, dateTzAware := false }
          else emptyDF
        else emptyDF

/-- One row of the resolved KRX list: `{"code": ..., "name": ..., "board": ...}`. -/
structure KrRow where
  code : String
  name : String
  board : String
deriving Repr, DecidableEq

/-- The hardcoded seed row of `get_kr_list` (src/downloader_kr.py line 93). -/
def seedRow : KrRow := ⟨"005930", "三星電子", "KS"⟩

/-- The `for i in range(max_retries)` loop of `get_kr_list`
(src/downloader_kr.py lines 64-86): each attempt either raises inside its
`try` (`none`) or yields the assembled KOSPI+KOSDAQ row list, accepted only
when it meets the threshold of 2000. -/
def fetch_loop (attempts : List (Option (List KrRow))) : Option (List KrRow) :=
  match attempts with
  | [] => none
  | some lst :: rest => if 2000 ≤ lst.length then some lst else fetch_loop rest
  | none :: rest => fetch_loop rest

/-- `get_kr_list` in src/downloader_kr.py (lines 59-93).  `hist` is the
state of the persisted `kr_list_all.csv`: `none` when absent, and when
present either its parsed rows or an `.error` when `pd.read_csv` raises —
that read (line 91) is not inside any `try`, so the error propagates.
With no historical file at all, the hardcoded seed row is returned. -/
def get_kr_list (attempts : List (Option (List KrRow)))
    (hist : Option (Except Unit (List KrRow))) : Except Unit (List KrRow) :=
  match fetch_loop attempts with
  | some lst => .ok lst
  | none =>
      match hist with
      | some (.ok l) => .ok l
      | some (.error _) => .error ()
      | none => .ok [seedRow]

/-- An output-directory entry as `build_manifest` sees it: `os.listdir`
yields only names; the source never reads a file's size, but we carry it to
make that visible. -/
structure DiskFile where
  fname : String
  size : Nat
deriving Repr, DecidableEq

/-- What the filename-decoding step of `build_manifest` (src/downloader_kr.py
lines 102-107) does with one directory entry: entries not ending in `.csv`
are filtered out, a stem with no dot is skipped, a stem whose `split(".")`
has exactly two parts decodes to `(code, board)`, and any other dot count
makes the two-name unpacking raise `ValueError`.  `replace` removes every
occurrence of `".csv"`, as Python's `str.replace` does. -/
inductive FileDecode where
  | skip
  | malformed
  | code (c b : String)
deriving Repr, DecidableEq

def decodeFile (name : String) : FileDecode :=
  if trailsWith ".csv".data name.data then
    let code_part := strReplace name ".csv" ""
    if code_part.data.contains '.' then
      match splitOnChar '.' code_part.data with
      | [c, b] => .code (String.mk c) (String.mk b)
      | _ => .malformed
    else .skip
  else .skip

/-- The file-scanning loop of `build_manifest` (lines 102-107): every
decoded `(c, b)` flips the status of each matching list row to `"done"`.
No size check is performed — `DiskFile.size` is never consulted.
A `malformed` entry makes the loop raise. -/
def applyFiles (m : List (KrRow × String)) (files : List DiskFile) :
    Except Unit (List (KrRow × String)) :=
  match files with
  | [] => .ok m
  | f :: fs =>
      match decodeFile f.fname with
      | .skip => applyFiles m fs
      | .malformed => .error ()
      | .code c b =>
          applyFiles
            (m.map (fun p => if p.1.code = c ∧ p.1.board = b then (p.1, "done") else p)) fs

/-- `build_manifest` in src/downloader_kr.py (lines 95-110): if the
persisted manifest exists it is returned verbatim; otherwise every row of
the resolved list is seeded `"pending"` and the output directory is
scanned, flipping decoded entries to `"done"`. -/
def build_manifest (persisted : Option (List (KrRow × String))) (rows : List KrRow)
    (files : List DiskFile) : Except Unit (List (KrRow × String)) :=
  match persisted with
  | some m => .ok m
  | none => applyFiles (rows.map (fun r => (r, "pending"))) files

/-- Outcome of `tk.history(...)` in `download_one`: a raised exception or a
returned frame (`none` models `None`). -/
inductive KrFetch where
  | raised
  | frame (df : Option DataFrame)
deriving Repr, DecidableEq

/-- Python `str.zfill` for the digit-only codes used here: left-pad with
`'0'` to the given width. -/
def zfill (s : String) (w : Nat) : String :=
  if w ≤ s.length then s
  else String.mk (List.replicate (w - s.length) '0') ++ s

/-- `map_symbol_kr` in src/downloader_kr.py (lines 42-45). -/
def map_symbol_kr (code board : String) : String :=
  let suffix := if strToUpper board = "KS" then ".KS" else ".KQ"
  zfill code 6 ++ suffix

/-- `download_one` in src/downloader_kr.py (lines 112-133).  The symbol and
path computations before the `try` are pure string formatting and cannot
raise for the string-typed row fields modelled here; everything fallible
(sleep, fetch, standardize, write) is inside the `try`, whose `except`
returns `(idx, "failed")`.  `writeRaises` models `df.to_csv` raising. -/
def download_one (idx : Nat) (row : KrRow) (fetch : KrFetch) (writeRaises : Bool) :
    Nat × String :=
  let _ := map_symbol_kr row.code row.board
  match fetch with
  | .raised => (idx, "failed")
  | .frame d =>
      let df := standardize_df d
      if df.isEmptyDF then (idx, "empty")
      else if writeRaises then (idx, "failed")
      else (idx, "done")

end KR

namespace US

/-- The `for attempt in range(2)` retry loop of `download_stock_data`
(src/downloader_us.py lines 98-111), driven by the list of both attempts'
outcomes.  A non-empty frame returns `"success"` at once; otherwise the
attempt ends with the ordinary transient sleep `uniform(2, 4)` = `⟨20, 40⟩`,
preceded — only when the raised message contains `"Rate limited"` — by the
long throttling backoff `uniform(20, 40)` = `⟨200, 400⟩`.  Exhausting the
loop yields `"empty"` (line 112).  Each consumed outcome is one fetch call. -/
def attemptLoop (outcomes : List FetchOutcome) : JobTrace :=
  match outcomes with
  | [] => ⟨"empty", [], 0⟩
  | o :: rest =>
      match o with
      | .history (some n) =>
          if 0 < n then ⟨"success", [], 1⟩
          else
            let r := attemptLoop rest
            ⟨r.status, ⟨20, 40⟩ :: r.sleeps, r.fetchCalls + 1⟩
      | .history none =>
          let r := attemptLoop rest
          ⟨r.status, ⟨20, 40⟩ :: r.sleeps, r.fetchCalls + 1⟩
      | .raised msg =>
          let r := attemptLoop rest
          if containsSubstr "Rate limited" msg then
            ⟨r.status, ⟨200, 400⟩ :: ⟨20, 40⟩ :: r.sleeps, r.fetchCalls + 1⟩
          else
            ⟨r.status, ⟨20, 40⟩ :: r.sleeps, r.fetchCalls + 1⟩

/-- The body inside the outer `try` of `download_stock_data`
(src/downloader_us.py lines 82-112): split the item on `'&'` (raising
`ValueError` without one), serve a fresh artifact — age below
`DATA_EXPIRY_SECONDS = 3600` and size above 1000 bytes — as `"exists"`
with no sleep and no fetch, and otherwise sleep the jitter
`uniform(0.4, 1.2)` = `⟨4, 12⟩` and run the retry loop on both attempts. -/
def jobBody (item : String) (file : Option FileInfo) (o1 o2 : FetchOutcome) :
    Except String JobTrace :=
  match splitAmp item with
  | none => .error "ValueError"
  | some _ =>
      let fresh : Bool :=
        match file with
        | some fi => decide (fi.age < 3600) && decide (1000 < fi.size)
        | none => false
      if fresh then .ok ⟨"exists", [], 0⟩
      else
        let r := attemptLoop [o1, o2]
        .ok ⟨r.status, ⟨4, 12⟩ :: r.sleeps, r.fetchCalls⟩

/-- `download_stock_data` in src/downloader_us.py (lines 79-114): the whole
body is wrapped in a bare `except` returning `{"status": "error"}`. -/
def download_stock_data (item : String) (file : Option FileInfo) (o1 o2 : FetchOutcome) :
    JobTrace :=
  match jobBody item file o1 o2 with
  | .ok t => t
  | .error _ => ⟨"error", [], 0⟩

end US

namespace HK

/-- The retry loop of the HK `download_stock_data`
(src/downloader_hk.py lines 124-136): unlike the US loop there is no
throttling recognition at all — a raised attempt sleeps
`randint(2, 5)` = `⟨20, 50⟩` and an empty-but-successful attempt sleeps
nothing — and exhaustion yields `"empty"`. -/
def attemptLoop (outcomes : List FetchOutcome) : JobTrace :=
  match outcomes with
  | [] => ⟨"empty", [], 0⟩
  | o :: rest =>
      match o with
      | .history (some n) =>
          if 0 < n then ⟨"success", [], 1⟩
          else
            let r := attemptLoop rest
            ⟨r.status, r.sleeps, r.fetchCalls + 1⟩
      | .history none =>
          let r := attemptLoop rest
          ⟨r.status, r.sleeps, r.fetchCalls + 1⟩
      | .raised _ =>
          let r := attemptLoop rest
          ⟨r.status, ⟨20, 50⟩ :: r.sleeps, r.fetchCalls + 1⟩

/-- Body inside the outer `try` of the HK `download_stock_data`
(src/downloader_hk.py lines 112-137): freshness is size-only
(`getsize > 1000`, no age window), the jitter is
`uniform(0.4, 1.0)` = `⟨4, 10⟩`. -/
def jobBody (item : String) (file : Option FileInfo) (o1 o2 : FetchOutcome) :
    Except String JobTrace :=
  match splitAmp item with
  | none => .error "ValueError"
  | some _ =>
      let fresh : Bool :=
        match file with
        | some fi => decide (1000 < fi.size)
        | none => false
      if fresh then .ok ⟨"exists", [], 0⟩
      else
        let r := attemptLoop [o1, o2]
        .ok ⟨r.status, ⟨4, 10⟩ :: r.sleeps, r.fetchCalls⟩

/-- `download_stock_data` in src/downloader_hk.py (lines 110-139): bare
outer `except` returning `{"status": "error"}`. -/
def download_stock_data (item : String) (file : Option FileInfo) (o1 o2 : FetchOutcome) :
    JobTrace :=
  match jobBody item file o1 o2 with
  | .ok t => t
  | .error _ => ⟨"error", [], 0⟩

end HK

namespace CN

/-- The head of `download_one` in src/downloader_cn.py (lines 80-88), which
is all of that function the repository contains — the file is truncated
right after the resume shortcut.  The `'&'` split is not inside any `try`,
so a separator-free item raises; an artifact larger than 1000 bytes returns
`{"status": "exists"}` with zero fetch calls; `.ok none` marks the fall
through into the missing remainder of the function. -/
def download_one_head (item : String) (file : Option FileInfo) :
    Except String (Option (String × Nat)) :=
  match splitAmp item with
  | none => .error "ValueError"
  | some _ =>
      match file with
      | some fi => if 1000 < fi.size then .ok (some ("exists", 0)) else .ok none
      | none => .ok none

/-- The hardcoded three-entry seed of `get_cn_list`
(src/downloader_cn.py line 78). -/
def cnSeed : List String := ["600519&貴州茅台", "000001&平安銀行", "300750&寧德時代"]

/-- The last two tiers of `get_cn_list` (src/downloader_cn.py lines 72-78),
reached when neither the same-day cache nor the EM fetch returned: the
historical-fallback read is NOT inside any `try`, so an
existing-but-unreadable cache file makes `json.load` raise (`.error`), and
with no cache at all the hardcoded seed is returned. -/
def cnFallback (cache : CacheState) : Except Unit (List String × CacheState) :=
  match cache with
  | .missing => .ok (cnSeed, cache)
  | .unreadable => .error ()
  | .readable _ data => .ok (data, cache)

/-- `get_cn_list` in src/downloader_cn.py (lines 32-78).  `fetch` is the
outcome of the whole Akshare EM `try` block: `none` when it raises (logged,
fall through), `some res` the `"code&name"` strings the comprehension
builds from the concatenated, prefix-filtered rows, in row order — the
source applies NO deduplication to `res` (there is no `list(set(...))`
here, unlike the US and HK resolvers).  The cache is rewritten only on the
`len(res) >= threshold` branch (lines 64-66) with `threshold = 4500`; a
below-threshold result does not return and falls into the fallback tiers. -/
def get_cn_list (cache : CacheState) (fetch : Option (List String)) :
    Except Unit (List String × CacheState) :=
  let cached : Option (List String) :=
    match cache with
    | .readable true data => if 4500 ≤ data.length then some data else none
    | _ => none
  match cached with
  | some data => .ok (data, cache)
  | none =>
      match fetch with
      | some res =>
          if 4500 ≤ res.length then .ok (res, .readable true res)
          else cnFallback cache
      | none => cnFallback cache

end CN

/-- The four counters initialised by `stats = {"success": 0, "exists": 0,
"empty": 0, "error": 0}` in the US/HK `main` functions. -/
structure Counters where
  success : Nat
  existing : Nat
  empty : Nat
  error : Nat
deriving Repr, DecidableEq

/-- One `stats[res.get("status", "error")] += 1` step: a status outside the
four initialised keys would raise `KeyError`, modelled as `.error`.  (Every
result dict carries a `"status"` key, so the `.get` default never fires.) -/
def bump (c : Counters) (s : String) : Except Unit Counters :=
  if s = "success" then .ok { c with success := c.success + 1 }
  else if s = "exists" then .ok { c with existing := c.existing + 1 }
  else if s = "empty" then .ok { c with empty := c.empty + 1 }
  else if s = "error" then .ok { c with error := c.error + 1 }
  else .error ()

/-- The `as_completed` aggregation loop of `main`, folded over the job
results' status strings. -/
def tally (c : Counters) (statuses : List String) : Except Unit Counters :=
  match statuses with
  | [] => .ok c
  | s :: rest =>
      match bump c s with
      | .ok c1 => tally c1 rest
      | .error e => .error e

/-- The summary dict `{"total": ..., "success": ..., "fail": ...}` returned
by the US/HK `main`. -/
structure RunStats where
  total : Nat
  success : Nat
  fail : Nat
deriving Repr, DecidableEq

/-- Observable record of one `main` run: its returned stats, how many jobs
were submitted to the pool, and the denominator of the completeness-ratio
division `effective_success / total_expected` when that division was
evaluated (`none` on the early-return path, where it is not). -/
structure MainTrace where
  stats : RunStats
  jobsScheduled : Nat
  ratioDen : Option Nat
deriving Repr, DecidableEq

namespace US

/-- `main` in src/downloader_us.py (lines 116-152): an empty resolved list
returns the zero summary at once (lines 119-121) with nothing scheduled and
no ratio computed; otherwise every item is submitted, statuses are tallied,
`success = stats.success + stats.exists`, `fail = stats.error + stats.empty`,
`total = len(items)`, and the ratio divides by `total_expected = len(items)`.
`fileOf`/`o1`/`o2` supply each item's artifact state and fetch outcomes. -/
def main (items : List String) (fileOf : String → Option FileInfo)
    (o1 o2 : String → FetchOutcome) : Except Unit MainTrace :=
  if items.isEmpty then .ok ⟨⟨0, 0, 0⟩, 0, none⟩
  else
    let statuses := items.map (fun it => (download_stock_data it (fileOf it) (o1 it) (o2 it)).status)
    match tally ⟨0, 0, 0, 0⟩ statuses with
    | .error e => .error e
    | .ok c =>
        .ok ⟨⟨items.length, c.success + c.existing, c.error + c.empty⟩,
             items.length, some items.length⟩

end US

namespace HK

/-- `main` in src/downloader_hk.py (lines 141-185): same structure as the
US `main` (the extra per-100-successes pause does not affect the returned
stats). -/
def main (items : List String) (fileOf : String → Option FileInfo)
    (o1 o2 : String → FetchOutcome) : Except Unit MainTrace :=
  if items.isEmpty then .ok ⟨⟨0, 0, 0⟩, 0, none⟩
  else
    let statuses := items.map (fun it => (download_stock_data it (fileOf it) (o1 it) (o2 it)).status)
    match tally ⟨0, 0, 0, 0⟩ statuses with
    | .error e => .error e
    | .ok c =>
        .ok ⟨⟨items.length, c.success + c.existing, c.error + c.empty⟩,
             items.length, some items.length⟩

end HK

/-- The closed set of terminal status strings a US/HK job can return,
matching the four counters `main` initialises. -/
def statusKeys : List String := ["success", "exists", "empty", "error"]

/-- The US retry loop only ever ends in `"success"` or `"empty"`. -/
theorem US.us_attemptLoop_status (os : List FetchOutcome) :
    (US.attemptLoop os).status = "success" ∨ (US.attemptLoop os).status = "empty" := by
  induction os with
  | nil => right; rfl
  | cons o rest ih =>
      cases o with
      | history rows =>
          cases rows with
          | none => simpa [US.attemptLoop] using ih
          | some n =>
              by_cases hn : 0 < n
              · left; simp [US.attemptLoop, hn]
              · simpa [US.attemptLoop, hn] using ih
      | raised msg =>
          by_cases hm : containsSubstr "Rate limited" msg = true
          · simpa [US.attemptLoop, hm] using ih
          · simp only [Bool.not_eq_true] at hm
            simpa [US.attemptLoop, hm] using ih

/-- The HK retry loop only ever ends in `"success"` or `"empty"`. -/
theorem HK.hk_attemptLoop_status (os : List FetchOutcome) :
    (HK.attemptLoop os).status = "success" ∨ (HK.attemptLoop os).status = "empty" := by
  induction os with
  | nil => right; rfl
  | cons o rest ih =>
      cases o with
      | history rows =>
          cases rows with
          | none => simpa [HK.attemptLoop] using ih
          | some n =>
              by_cases hn : 0 < n
              · left; simp [HK.attemptLoop, hn]
              · simpa [HK.attemptLoop, hn] using ih
      | raised msg => simpa [HK.attemptLoop] using ih

/-- Every US job boundary result carries one of the four counter keys. -/
theorem US.us_download_stock_data_status_mem (item : String) (file : Option FileInfo)
    (o1 o2 : FetchOutcome) :
    (US.download_stock_data item file o1 o2).status ∈ statusKeys := by
  unfold US.download_stock_data US.jobBody
  cases hs : splitAmp item with
  | none => simp [statusKeys]
  | some pr =>
      set fresh : Bool :=
        match file with
        | some fi => decide (fi.age < 3600) && decide (1000 < fi.size)
        | none => false with hfresh
      by_cases hf : fresh = true
      · simp [hf, statusKeys]
      · simp only [Bool.not_eq_true] at hf
        rcases US.us_attemptLoop_status [o1, o2] with h | h <;>
          simp [hf, h, statusKeys]

/-- Every HK job boundary result carries one of the four counter keys. -/
theorem HK.hk_download_stock_data_status_mem (item : String) (file : Option FileInfo)
    (o1 o2 : FetchOutcome) :
    (HK.download_stock_data item file o1 o2).status ∈ statusKeys := by
  unfold HK.download_stock_data HK.jobBody
  cases hs : splitAmp item with
  | none => simp [statusKeys]
  | some pr =>
      set fresh : Bool :=
        match file with
        | some fi => decide (1000 < fi.size)
        | none => false with hfresh
      by_cases hf : fresh = true
      · simp [hf, statusKeys]
      · simp only [Bool.not_eq_true] at hf
        rcases HK.hk_attemptLoop_status [o1, o2] with h | h <;>
          simp [hf, h, statusKeys]

/-- Tallying any list of recognised statuses succeeds, and each status
bumps exactly one counter: the counters' sum grows by the list's length. -/
theorem tally_ok (ss : List String) (c : Counters) (h : ∀ s ∈ ss, s ∈ statusKeys) :
    ∃ c1, tally c ss = .ok c1 ∧
      c1.success + c1.existing + c1.empty + c1.error
        = c.success + c.existing + c.empty + c.error + ss.length := by
  induction ss generalizing c with
  | nil => exact ⟨c, rfl, by simp⟩
  | cons s rest ih =>
      have hs : s ∈ statusKeys := h s (List.mem_cons_self s rest)
      have hrest : ∀ x ∈ rest, x ∈ statusKeys := fun x hx => h x (List.mem_cons_of_mem s hx)
      simp only [statusKeys, List.mem_cons, List.mem_singleton, List.not_mem_nil, or_false]
        at hs
      rcases hs with h1 | h1 | h1 | h1 <;> subst h1
      · obtain ⟨c1, hc1, hsum⟩ := ih { c with success := c.success + 1 } hrest
        refine ⟨c1, by simpa [tally, bump] using hc1, ?_⟩
        simp only [List.length_cons] at hsum ⊢
        omega
      · obtain ⟨c1, hc1, hsum⟩ := ih { c with existing := c.existing + 1 } hrest
        refine ⟨c1, by simpa [tally, bump] using hc1, ?_⟩
        simp only [List.length_cons] at hsum ⊢
        omega
      · obtain ⟨c1, hc1, hsum⟩ := ih { c with empty := c.empty + 1 } hrest
        refine ⟨c1, by simpa [tally, bump] using hc1, ?_⟩
        simp only [List.length_cons] at hsum ⊢
        omega
      · obtain ⟨c1, hc1, hsum⟩ := ih { c with error := c.error + 1 } hrest
        refine ⟨c1, by simpa [tally, bump] using hc1, ?_⟩
        simp only [List.length_cons] at hsum ⊢
        omega

/-- A list accepted by the HK fetch loop meets the threshold and is the
deduplication of one attempt's rows. -/
theorem HK.hk_fetch_loop_some (attempts : List (Option (List String))) (fl : List String)
    (h : HK.fetch_loop attempts = some fl) :
    2000 ≤ fl.length ∧ ∃ rows, some rows ∈ attempts ∧ fl = rows.dedup := by
  induction attempts with
  | nil => simp [HK.fetch_loop] at h
  | cons a rest ih =>
      cases a with
      | none =>
          simp only [HK.fetch_loop] at h
          obtain ⟨hlen, rows, hmem, hfl⟩ := ih h
          exact ⟨hlen, rows, List.mem_cons_of_mem _ hmem, hfl⟩
      | some rows =>
          simp only [HK.fetch_loop] at h
          by_cases hlen : 2000 ≤ rows.dedup.length
          · rw [if_pos hlen] at h
            cases h
            exact ⟨hlen, rows, List.mem_cons_self _ _, rfl⟩
          · rw [if_neg hlen] at h
            obtain ⟨hl, rows1, hmem, hfl⟩ := ih h
            exact ⟨hl, rows1, List.mem_cons_of_mem _ hmem, hfl⟩

/-- A list accepted by the KR fetch loop meets the threshold. -/
theorem KR.kr_fetch_loop_some (attempts : List (Option (List KR.KrRow))) (lst : List KR.KrRow)
    (h : KR.fetch_loop attempts = some lst) : 2000 ≤ lst.length := by
  induction attempts with
  | nil => simp [KR.fetch_loop] at h
  | cons a rest ih =>
      cases a with
      | none => exact ih (by simpa [KR.fetch_loop] using h)
      | some l =>
          simp only [KR.fetch_loop] at h
          by_cases hlen : 2000 ≤ l.length
          · rw [if_pos hlen] at h
            cases h
            exact hlen
          · exact ih (by rwa [if_neg hlen] at h)

/-- The matching condition the `build_manifest` scan applies to one
directory entry against one list row. -/
def KR.matchesRow (r : KR.KrRow) (f : KR.DiskFile) : Bool :=
  match KR.decodeFile f.fname with
  | .code c b => decide (r.code = c ∧ r.board = b)
  | _ => false

/-- Whether any directory entry decodes to the row's `(code, board)`. -/
def KR.anyDecodes (files : List KR.DiskFile) (r : KR.KrRow) : Bool :=
  files.any (KR.matchesRow r)

/-- The `build_manifest` scan, when it does not raise, flips exactly the
rows some directory entry decodes to, and only to `"done"` — the entry's
size plays no part. -/
theorem KR.applyFiles_ok (files : List KR.DiskFile) (m m1 : List (KR.KrRow × String))
    (h : KR.applyFiles m files = .ok m1) :
    m1 = m.map (fun p => if KR.anyDecodes files p.1 then (p.1, "done") else p) := by
  induction files generalizing m with
  | nil =>
      simp only [KR.applyFiles, Except.ok.injEq] at h
      subst h
      simp [KR.anyDecodes]
  | cons f fs ih =>
      have hstep : KR.applyFiles m (f :: fs) =
          match KR.decodeFile f.fname with
          | .skip => KR.applyFiles m fs
          | .malformed => .error ()
          | .code c b =>
              KR.applyFiles
                (m.map fun p => if p.1.code = c ∧ p.1.board = b then (p.1, "done") else p)
                fs := rfl
      rw [hstep] at h
      cases hd : KR.decodeFile f.fname with
      | skip =>
          rw [hd] at h
          rw [ih m h]
          refine List.map_congr_left fun p _ => ?_
          have : KR.matchesRow p.1 f = false := by simp [KR.matchesRow, hd]
          simp [KR.anyDecodes, List.any_cons, this]
      | malformed => rw [hd] at h; cases h
      | code c b =>
          rw [hd] at h
          rw [ih _ h, List.map_map]
          refine List.map_congr_left fun p _ => ?_
          by_cases hp : p.1.code = c ∧ p.1.board = b
          · have hm : KR.matchesRow p.1 f = true := by
              simp [KR.matchesRow, hd, hp.1, hp.2]
            simp [Function.comp, hp, KR.anyDecodes, List.any_cons, hm]
          · have hm : KR.matchesRow p.1 f = false := by
              simp only [KR.matchesRow, hd, decide_eq_false_iff_not]
              exact hp
            simp [Function.comp, hp, KR.anyDecodes, List.any_cons, hm]

/-- The US pool-level `main` always returns a summary: the tally never hits
an unknown status key, `total` is the resolved list's length, the two
terminal sides partition the jobs, and the scheduling / ratio facts follow
the empty-list early return. -/
theorem US.us_main_ok (items : List String) (fileOf : String → Option FileInfo)
    (o1 o2 : String → FetchOutcome) :
    ∃ t, US.main items fileOf o1 o2 = .ok t
      ∧ t.stats.total = items.length
      ∧ t.stats.success + t.stats.fail = t.stats.total
      ∧ t.jobsScheduled = (if items.isEmpty then 0 else items.length)
      ∧ t.ratioDen = (if items.isEmpty then none else some items.length) := by
  by_cases he : items.isEmpty
  · have hnil : items = [] := List.isEmpty_iff.mp he
    subst hnil
    exact ⟨⟨⟨0, 0, 0⟩, 0, none⟩, rfl, rfl, rfl, rfl, rfl⟩
  · have hall : ∀ s ∈ items.map
        (fun it => (US.download_stock_data it (fileOf it) (o1 it) (o2 it)).status),
        s ∈ statusKeys := by
      intro s hs
      obtain ⟨it, _, rfl⟩ := List.mem_map.mp hs
      exact US.us_download_stock_data_status_mem it (fileOf it) (o1 it) (o2 it)
    obtain ⟨c, hc, hsum⟩ := tally_ok _ ⟨0, 0, 0, 0⟩ hall
    refine ⟨⟨⟨items.length, c.success + c.existing, c.error + c.empty⟩,
             items.length, some items.length⟩, ?_, rfl, ?_, by simp [he], by simp [he]⟩
    · unfold US.main
      rw [if_neg he]
      dsimp only
      rw [hc]
    · have hlen := List.length_map items
        (fun it => (US.download_stock_data it (fileOf it) (o1 it) (o2 it)).status)
      dsimp at hsum ⊢
      omega

/-- The HK pool-level `main` always returns a summary, with the same
partition facts as the US one. -/
theorem HK.hk_main_ok (items : List String) (fileOf : String → Option FileInfo)
    (o1 o2 : String → FetchOutcome) :
    ∃ t, HK.main items fileOf o1 o2 = .ok t
      ∧ t.stats.total = items.length
      ∧ t.stats.success + t.stats.fail = t.stats.total
      ∧ t.jobsScheduled = (if items.isEmpty then 0 else items.length)
      ∧ t.ratioDen = (if items.isEmpty then none else some items.length) := by
  by_cases he : items.isEmpty
  · have hnil : items = [] := List.isEmpty_iff.mp he
    subst hnil
    exact ⟨⟨⟨0, 0, 0⟩, 0, none⟩, rfl, rfl, rfl, rfl, rfl⟩
  · have hall : ∀ s ∈ items.map
        (fun it => (HK.download_stock_data it (fileOf it) (o1 it) (o2 it)).status),
        s ∈ statusKeys := by
      intro s hs
      obtain ⟨it, _, rfl⟩ := List.mem_map.mp hs
      exact HK.hk_download_stock_data_status_mem it (fileOf it) (o1 it) (o2 it)
    obtain ⟨c, hc, hsum⟩ := tally_ok _ ⟨0, 0, 0, 0⟩ hall
    refine ⟨⟨⟨items.length, c.success + c.existing, c.error + c.empty⟩,
             items.length, some items.length⟩, ?_, rfl, ?_, by simp [he], by simp [he]⟩
    · unfold HK.main
      rw [if_neg he]
      dsimp only
      rw [hc]
    · have hlen := List.length_map items
        (fun it => (HK.download_stock_data it (fileOf it) (o1 it) (o2 it)).status)
      dsimp at hsum ⊢
      omega

/-- The US retry loop's step on a raised attempt, as one equation: a
rate-limited message adds the long `uniform(20, 40)`-second backoff before
the ordinary `uniform(2, 4)`-second sleep; any other message gets only the
ordinary sleep. -/
theorem US.us_attemptLoop_raised (msg : String) (rest : List FetchOutcome) :
    US.attemptLoop (.raised msg :: rest)
      = if containsSubstr "Rate limited" msg then
          ⟨(US.attemptLoop rest).status,
           ⟨200, 400⟩ :: ⟨20, 40⟩ :: (US.attemptLoop rest).sleeps,
           (US.attemptLoop rest).fetchCalls + 1⟩
        else
          ⟨(US.attemptLoop rest).status, ⟨20, 40⟩ :: (US.attemptLoop rest).sleeps,
           (US.attemptLoop rest).fetchCalls + 1⟩ := rfl

/-- The HK retry loop's step on a raised attempt: always the ordinary
`randint(2, 5)`-second sleep, with no throttling recognition. -/
theorem HK.hk_attemptLoop_raised (msg : String) (rest : List FetchOutcome) :
    HK.attemptLoop (.raised msg :: rest)
      = ⟨(HK.attemptLoop rest).status, ⟨20, 50⟩ :: (HK.attemptLoop rest).sleeps,
         (HK.attemptLoop rest).fetchCalls + 1⟩ := rfl

/-- C1, counterexample.  The claim says every list-resolution function
returns normally and non-empty, falling back to a hardcoded seed list.  At
these concrete outcomes it is false twice over: the US resolver, with no
cache and both site queries raising, returns the EMPTY list (it has no seed
tier at all), and the HK resolver, with an existing-but-unreadable cache
and all three fetch attempts raising, RAISES past its boundary (the
historical-cache `json.load` at src/downloader_hk.py lines 106-107 is not
inside any `try`). -/
theorem claim_C1_counterexample :
    (US.get_full_stock_list .missing none none).1 = []
    ∧ HK.get_full_stock_list .unreadable [none, none, none] = .error () := by
  exact ⟨rfl, rfl⟩

/-- C1, amended.  Only `get_kr_list` has a hardcoded seed: for every fetch
outcome it returns normally and non-empty when no historical list file
exists, and it returns normally whenever the historical file is readable;
the HK resolver returns normally so long as its cache file is not an
existing-but-unreadable one (but may return the empty list).  (The US
resolver is total by construction: every fallible operation in its source
is inside a `try`, which is why its model is a plain function — but its
exhausted result is the empty list, as the counterexample shows.) -/
theorem claim_C1_amended :
    (∀ attempts : List (Option (List KR.KrRow)),
        ∃ l, KR.get_kr_list attempts none = .ok l ∧ l ≠ [])
    ∧ (∀ (attempts : List (Option (List KR.KrRow))) (histRows : List KR.KrRow),
        ∃ l, KR.get_kr_list attempts (some (.ok histRows)) = .ok l)
    ∧ (∀ (c : CacheState) (att : List (Option (List String))),
        c ≠ CacheState.unreadable → ∃ r, HK.get_full_stock_list c att = .ok r) := by
  refine ⟨?_, ?_, ?_⟩
  · intro att
    cases h : KR.fetch_loop att with
    | some lst =>
        refine ⟨lst, by unfold KR.get_kr_list; rw [h], ?_⟩
        have hlen := KR.kr_fetch_loop_some att lst h
        intro hnil
        rw [hnil] at hlen
        simp at hlen
    | none => exact ⟨[KR.seedRow], by unfold KR.get_kr_list; rw [h], by simp⟩
  · intro att histRows
    cases h : KR.fetch_loop att with
    | some lst => exact ⟨lst, by unfold KR.get_kr_list; rw [h]⟩
    | none => exact ⟨histRows, by unfold KR.get_kr_list; rw [h]⟩
  · intro c att hc
    unfold HK.get_full_stock_list
    cases c with
    | unreadable => exact absurd rfl hc
    | missing =>
        cases h : HK.fetch_loop att with
        | some fl => exact ⟨(fl, .readable true fl), rfl⟩
        | none => exact ⟨([], .missing), rfl⟩
    | readable sd data =>
        cases sd with
        | true =>
            by_cases hl : 2000 ≤ data.length
            · exact ⟨(data, .readable true data), by simp [hl]⟩
            · cases h : HK.fetch_loop att with
              | some fl => exact ⟨(fl, .readable true fl), by simp [hl, h]⟩
              | none => exact ⟨(data, .readable true data), by simp [hl, h]⟩
        | false =>
            cases h : HK.fetch_loop att with
            | some fl => exact ⟨(fl, .readable true fl), by simp [h]⟩
            | none => exact ⟨(data, .readable false data), by simp [h]⟩

/-- Witness for C1's amended theorem at concrete inputs. -/
theorem claim_C1_witness :
    ∃ r, HK.get_full_stock_list CacheState.missing [none, none, none] = .ok r :=
  claim_C1_amended.2.2 CacheState.missing [none, none, none] (by decide)

/-- C2, counterexample.  The claim says a manifest entry flips to done only
for an artifact that also passes the minimum-size check.  On first build
with the seed row and a ZERO-byte artifact `005930.KS.csv` on disk, the
entry is nonetheless marked `"done"`: `build_manifest` never reads a file's
size (src/downloader_kr.py lines 102-107). -/
theorem claim_C2_counterexample :
    KR.build_manifest none [KR.seedRow] [⟨"005930.KS.csv", 0⟩]
      = .ok [(KR.seedRow, "done")] := by decide

/-- C2, amended.  On first build (no persisted manifest), every security of
the resolved list is seeded pending, and an entry is flipped to done
exactly when some output artifact's filename decodes to that security's
`(code, board)` — with NO size condition: the artifact's size plays no part
in the scan. -/
theorem claim_C2_amended (rows : List KR.KrRow) (files : List KR.DiskFile)
    (m : List (KR.KrRow × String)) (h : KR.build_manifest none rows files = .ok m) :
    m = rows.map (fun r => (r, if KR.anyDecodes files r then "done" else "pending")) := by
  unfold KR.build_manifest at h
  rw [KR.applyFiles_ok files _ m h, List.map_map]
  refine List.map_congr_left fun r _ => ?_
  by_cases hd : KR.anyDecodes files r
  · simp [Function.comp, hd]
  · simp [Function.comp, hd]

/-- Witness for C2's amended theorem: a decoded artifact (here of size
2000) flips the seeded entry to done. -/
theorem claim_C2_witness :
    [(KR.seedRow, "done")] = [KR.seedRow].map
      (fun r => (r, if KR.anyDecodes [⟨"005930.KS.csv", 2000⟩] r then "done" else "pending")) :=
  claim_C2_amended [KR.seedRow] [⟨"005930.KS.csv", 2000⟩] [(KR.seedRow, "done")] (by decide)

/-- C3: every exception inside a download job is absorbed at a boundary —
an error reaching the US/HK job boundary yields the terminal `"error"`
result, a raised KR fetch yields `"failed"`, every KR job result is one of
the three terminal statuses, and the pool-level runs complete with a
summary for all oracles. -/
theorem claim_C3 (item : String) (file : Option FileInfo) (o1 o2 : FetchOutcome)
    (idx : Nat) (row : KR.KrRow) (kf : KR.KrFetch) (w : Bool)
    (items : List String) (fl : String → Option FileInfo) (g1 g2 : String → FetchOutcome) :
    (∀ e, US.jobBody item file o1 o2 = .error e →
        US.download_stock_data item file o1 o2 = ⟨"error", [], 0⟩)
    ∧ (∀ e, HK.jobBody item file o1 o2 = .error e →
        HK.download_stock_data item file o1 o2 = ⟨"error", [], 0⟩)
    ∧ (KR.download_one idx row kf w).2 ∈ (["done", "empty", "failed"] : List String)
    ∧ (kf = KR.KrFetch.raised → (KR.download_one idx row kf w).2 = "failed")
    ∧ (∃ t, US.main items fl g1 g2 = .ok t)
    ∧ (∃ t, HK.main items fl g1 g2 = .ok t) := by
  obtain ⟨t1, h1, _⟩ := US.us_main_ok items fl g1 g2
  obtain ⟨t2, h2, _⟩ := HK.hk_main_ok items fl g1 g2
  refine ⟨?_, ?_, ?_, ?_, ⟨t1, h1⟩, ⟨t2, h2⟩⟩
  · intro e he
    unfold US.download_stock_data
    rw [he]
  · intro e he
    unfold HK.download_stock_data
    rw [he]
  · cases kf with
    | raised => simp [KR.download_one]
    | frame d =>
        by_cases hmt : (KR.standardize_df d).isEmptyDF
        · simp [KR.download_one, hmt]
        · cases w <;> simp [KR.download_one, hmt]
  · intro hk
    subst hk
    rfl

/-- Witness for C3 at concrete inputs: a separator-free item makes the US
job body raise and the boundary convert it to `"error"`; a raised KR fetch
ends as `"failed"`. -/
theorem claim_C3_witness :
    US.download_stock_data "NOSEP" none (.raised "x") (.raised "y") = ⟨"error", [], 0⟩
    ∧ (KR.download_one 0 KR.seedRow .raised false).2 = "failed" := by
  have h := claim_C3 "NOSEP" none (.raised "x") (.raised "y") 0 KR.seedRow .raised false
    [] (fun _ => none) (fun _ => .raised "x") (fun _ => .raised "x")
  exact ⟨h.1 "ValueError" (by decide), h.2.2.2.1 rfl⟩

/-- C4: for every resolved list and every oracle, both pool-level `main`s
return a summary with `total = n` (the resolved list's length) and
`success + fail = total` — each job lands in exactly one counter. -/
theorem claim_C4 (items : List String) (fileOf : String → Option FileInfo)
    (o1 o2 : String → FetchOutcome) :
    (∃ t, US.main items fileOf o1 o2 = .ok t
        ∧ t.stats.success + t.stats.fail = t.stats.total ∧ t.stats.total = items.length)
    ∧ (∃ t, HK.main items fileOf o1 o2 = .ok t
        ∧ t.stats.success + t.stats.fail = t.stats.total ∧ t.stats.total = items.length) := by
  obtain ⟨t1, h1, ht1, hs1, _, _⟩ := US.us_main_ok items fileOf o1 o2
  obtain ⟨t2, h2, ht2, hs2, _, _⟩ := HK.hk_main_ok items fileOf o1 o2
  exact ⟨⟨t1, h1, hs1, ht1⟩, ⟨t2, h2, hs2, ht2⟩⟩

/-- C5, counterexample.  The claim says exhausting the bounded retries
after throttling errors ends the entry in the Failed status, not Empty.
At this concrete input — a job whose two attempts both raise a
`"Rate limited"` error — the US job does perform the long `⟨200, 400⟩`
(20-40 s) backoff before each ordinary `⟨20, 40⟩` (2-4 s) sleep, but its
terminal status is `"empty"`, not `"error"`/failed
(src/downloader_us.py line 112). -/
theorem claim_C5_counterexample :
    US.download_stock_data "AAPL&Apple" none
        (.raised "Rate limited. Try after a while.")
        (.raised "Rate limited. Try after a while.")
      = ⟨"empty", [⟨4, 12⟩, ⟨200, 400⟩, ⟨20, 40⟩, ⟨200, 400⟩, ⟨20, 40⟩], 2⟩ := by decide

/-- C5, amended.  In the US job a request error whose text contains
`"Rate limited"` is followed by a long randomized 20-40 s backoff before
the next attempt (on top of the ordinary 2-4 s transient sleep), while
other errors get only the ordinary sleep; the HK job applies a uniform
2-5 s backoff with no throttling recognition at all; and in both, retries
exhausted on throttling errors end in the status `"empty"` (tallied on the
fail side), not `"error"`. -/
theorem claim_C5_amended :
    (∀ (msg : String) (rest : List FetchOutcome),
        containsSubstr "Rate limited" msg = true →
        US.attemptLoop (.raised msg :: rest)
          = ⟨(US.attemptLoop rest).status,
             ⟨200, 400⟩ :: ⟨20, 40⟩ :: (US.attemptLoop rest).sleeps,
             (US.attemptLoop rest).fetchCalls + 1⟩)
    ∧ (∀ (msg : String) (rest : List FetchOutcome),
        containsSubstr "Rate limited" msg = false →
        US.attemptLoop (.raised msg :: rest)
          = ⟨(US.attemptLoop rest).status, ⟨20, 40⟩ :: (US.attemptLoop rest).sleeps,
             (US.attemptLoop rest).fetchCalls + 1⟩)
    ∧ (∀ m1 m2 : String, (US.attemptLoop [.raised m1, .raised m2]).status = "empty")
    ∧ (∀ (msg : String) (rest : List FetchOutcome),
        HK.attemptLoop (.raised msg :: rest)
          = ⟨(HK.attemptLoop rest).status, ⟨20, 50⟩ :: (HK.attemptLoop rest).sleeps,
             (HK.attemptLoop rest).fetchCalls + 1⟩) := by
  refine ⟨?_, ?_, ?_, fun msg rest => HK.hk_attemptLoop_raised msg rest⟩
  · intro msg rest h
    rw [US.us_attemptLoop_raised, if_pos h]
  · intro msg rest h
    rw [US.us_attemptLoop_raised, if_neg (by simp [h])]
  · intro m1 m2
    have h2 : (US.attemptLoop [FetchOutcome.raised m2]).status = "empty" := by
      rw [US.us_attemptLoop_raised, apply_ite JobTrace.status]
      simp [US.attemptLoop]
    rw [US.us_attemptLoop_raised, apply_ite JobTrace.status]
    simp [h2]

/-- Witness for C5's amended theorem at concrete messages. -/
theorem claim_C5_witness :
    US.attemptLoop [.raised "Rate limited", .history (some 3)]
      = ⟨"success", [⟨200, 400⟩, ⟨20, 40⟩], 2⟩
    ∧ US.attemptLoop [.raised "boom", .history (some 3)]
      = ⟨"success", [⟨20, 40⟩], 2⟩ := by
  constructor
  · rw [claim_C5_amended.1 "Rate limited" [.history (some 3)] (by decide)]
    rfl
  · rw [claim_C5_amended.2.1 "boom" [.history (some 3)] (by decide)]
    rfl


/-- The HK resolver's fallback cases, packaged: whenever it returns `.ok`,
either the returned cache state is the input one, or the fetch loop
accepted a deduplicated, threshold-meeting list that became the new state. -/
theorem HK.get_full_stock_list_cases (c : CacheState) (att : List (Option (List String)))
    (l : List String) (c2 : CacheState) (h : HK.get_full_stock_list c att = .ok (l, c2)) :
    c2 = c ∨ (2000 ≤ l.length ∧ c2 = .readable true l
        ∧ ∃ rows, some rows ∈ att ∧ l = rows.dedup) := by
  have fetchCase : ∀ fl, HK.fetch_loop att = some fl → fl = l →
      CacheState.readable true fl = c2 →
      c2 = c ∨ (2000 ≤ l.length ∧ c2 = .readable true l
          ∧ ∃ rows, some rows ∈ att ∧ l = rows.dedup) := by
    intro fl hf hfl hc2
    subst hfl
    obtain ⟨hlen, rows, hmem, hdedup⟩ := HK.hk_fetch_loop_some att fl hf
    exact Or.inr ⟨hlen, hc2.symm, rows, hmem, hdedup⟩
  unfold HK.get_full_stock_list at h
  cases c with
  | missing =>
      dsimp only at h
      cases hf : HK.fetch_loop att with
      | some fl =>
          rw [hf] at h
          simp only [Except.ok.injEq, Prod.mk.injEq] at h
          exact fetchCase fl hf h.1 h.2
      | none =>
          rw [hf] at h
          simp only [Except.ok.injEq, Prod.mk.injEq] at h
          exact Or.inl h.2.symm
  | unreadable =>
      dsimp only at h
      cases hf : HK.fetch_loop att with
      | some fl =>
          rw [hf] at h
          simp only [Except.ok.injEq, Prod.mk.injEq] at h
          exact fetchCase fl hf h.1 h.2
      | none => rw [hf] at h; cases h
  | readable sd data =>
      cases sd with
      | true =>
          dsimp only at h
          by_cases hc : 2000 ≤ data.length
          · rw [if_pos hc] at h
            simp only [Except.ok.injEq, Prod.mk.injEq] at h
            exact Or.inl h.2.symm
          · rw [if_neg hc] at h
            cases hf : HK.fetch_loop att with
            | some fl =>
                rw [hf] at h
                simp only [Except.ok.injEq, Prod.mk.injEq] at h
                exact fetchCase fl hf h.1 h.2
            | none =>
                rw [hf] at h
                simp only [Except.ok.injEq, Prod.mk.injEq] at h
                exact Or.inl h.2.symm
      | false =>
          dsimp only at h
          cases hf : HK.fetch_loop att with
          | some fl =>
              rw [hf] at h
              simp only [Except.ok.injEq, Prod.mk.injEq] at h
              exact fetchCase fl hf h.1 h.2
          | none =>
              rw [hf] at h
              simp only [Except.ok.injEq, Prod.mk.injEq] at h
              exact Or.inl h.2.symm

/-- The CN resolver's fallback cases, packaged: whenever it returns `.ok`,
either the returned cache state is the input one, or the raw (as-built,
non-deduplicated) fetch result met the 4500 threshold and was written
verbatim as the new state. -/
theorem CN.get_cn_list_cases (c : CacheState) (fetch : Option (List String))
    (l : List String) (c2 : CacheState) (h : CN.get_cn_list c fetch = .ok (l, c2)) :
    c2 = c ∨ (4500 ≤ l.length ∧ c2 = .readable true l ∧ fetch = some l) := by
  have hfb : CN.cnFallback c = .ok (l, c2) → c2 = c := by
    intro h1
    cases c with
    | missing =>
        simp only [CN.cnFallback, Except.ok.injEq, Prod.mk.injEq] at h1
        exact h1.2.symm
    | unreadable => simp [CN.cnFallback] at h1
    | readable sd data =>
        simp only [CN.cnFallback, Except.ok.injEq, Prod.mk.injEq] at h1
        exact h1.2.symm
  have fetchCase : ∀ res, fetch = some res → 4500 ≤ res.length → res = l →
      CacheState.readable true res = c2 →
      c2 = c ∨ (4500 ≤ l.length ∧ c2 = .readable true l ∧ fetch = some l) := by
    intro res hres hlen h1 h2
    subst h1
    exact Or.inr ⟨hlen, h2.symm, hres⟩
  unfold CN.get_cn_list at h
  cases c with
  | missing =>
      dsimp only at h
      cases fetch with
      | none => exact Or.inl (hfb h)
      | some res =>
          dsimp only at h
          by_cases hl : 4500 ≤ res.length
          · rw [if_pos hl] at h
            simp only [Except.ok.injEq, Prod.mk.injEq] at h
            exact fetchCase res rfl hl h.1 h.2
          · rw [if_neg hl] at h
            exact Or.inl (hfb h)
  | unreadable =>
      dsimp only at h
      cases fetch with
      | none => exact Or.inl (hfb h)
      | some res =>
          dsimp only at h
          by_cases hl : 4500 ≤ res.length
          · rw [if_pos hl] at h
            simp only [Except.ok.injEq, Prod.mk.injEq] at h
            exact fetchCase res rfl hl h.1 h.2
          · rw [if_neg hl] at h
            exact Or.inl (hfb h)
  | readable sd data =>
      cases sd with
      | true =>
          dsimp only at h
          by_cases hc : 4500 ≤ data.length
          · rw [if_pos hc] at h
            simp only [Except.ok.injEq, Prod.mk.injEq] at h
            exact Or.inl h.2.symm
          · rw [if_neg hc] at h
            cases fetch with
            | none => exact Or.inl (hfb h)
            | some res =>
                dsimp only at h
                by_cases hl : 4500 ≤ res.length
                · rw [if_pos hl] at h
                  simp only [Except.ok.injEq, Prod.mk.injEq] at h
                  exact fetchCase res rfl hl h.1 h.2
                · rw [if_neg hl] at h
                  exact Or.inl (hfb h)
      | false =>
          dsimp only at h
          cases fetch with
          | none => exact Or.inl (hfb h)
          | some res =>
              dsimp only at h
              by_cases hl : 4500 ≤ res.length
              · rw [if_pos hl] at h
                simp only [Except.ok.injEq, Prod.mk.injEq] at h
                exact fetchCase res rfl hl h.1 h.2
              · rw [if_neg hl] at h
                exact Or.inl (hfb h)

/-- C6, counterexample.  The claim says the cache is overwritten only when
a freshly resolved, DEDUPLICATED list meets the market threshold.  For the
CN market this is false: `get_cn_list` never deduplicates.  At this
concrete outcome — an EM fetch whose `res` is one `"code&name"` entry
repeated 4500 times — the cache is overwritten with the duplicate-laden
list verbatim, although its deduplication has length 1, far below the 4500
threshold. -/
theorem claim_C6_counterexample :
    CN.get_cn_list CacheState.missing
        (some (List.replicate 4500 "000001&平安銀行"))
      = .ok (List.replicate 4500 "000001&平安銀行",
             .readable true (List.replicate 4500 "000001&平安銀行"))
    ∧ (List.replicate 4500 "000001&平安銀行").dedup
        = ["000001&平安銀行"] := by
  constructor
  · unfold CN.get_cn_list
    dsimp only
    rw [if_pos (by rw [List.length_replicate])]
  · exact List.replicate_dedup (by decide)

/-- C6, amended.  The US/HK cache state is overwritten only when the
fresh, DEDUPLICATED fetch result meets the market threshold (3000 / 2000);
the CN cache state is overwritten only when the raw, NON-deduplicated
fetch result meets its 4500 threshold (CN performs no deduplication, so a
duplicate-laden list can be written); any below-threshold outcome leaves
the cache state unchanged in all three markets; and reading a written
cache back on a later same-day call returns exactly the written list
(round-trip), in all three markets. -/
theorem claim_C6_amended :
    (∀ (c : CacheState) (s1 s2 : Option (List String)),
        (US.get_full_stock_list c s1 s2).2 = c
        ∨ (3000 ≤ (US.get_full_stock_list c s1 s2).1.length
            ∧ (US.get_full_stock_list c s1 s2).2
                = .readable true (US.get_full_stock_list c s1 s2).1
            ∧ (US.get_full_stock_list c s1 s2).1 = (s1.getD [] ++ s2.getD []).dedup))
    ∧ (∀ (c : CacheState) (att : List (Option (List String))) (l : List String)
          (c2 : CacheState),
        HK.get_full_stock_list c att = .ok (l, c2) →
        c2 = c ∨ (2000 ≤ l.length ∧ c2 = .readable true l
            ∧ ∃ rows, some rows ∈ att ∧ l = rows.dedup))
    ∧ (∀ (c : CacheState) (fetch : Option (List String)) (l : List String)
          (c2 : CacheState),
        CN.get_cn_list c fetch = .ok (l, c2) →
        c2 = c ∨ (4500 ≤ l.length ∧ c2 = .readable true l ∧ fetch = some l))
    ∧ (∀ (l : List String) (t1 t2 : Option (List String)),
        3000 ≤ l.length →
        US.get_full_stock_list (.readable true l) t1 t2 = (l, .readable true l))
    ∧ (∀ (l : List String) (att : List (Option (List String))),
        2000 ≤ l.length →
        HK.get_full_stock_list (.readable true l) att = .ok (l, .readable true l))
    ∧ (∀ (l : List String) (fetch : Option (List String)),
        4500 ≤ l.length →
        CN.get_cn_list (.readable true l) fetch = .ok (l, .readable true l)) := by
  refine ⟨?_, fun c att l c2 h => HK.get_full_stock_list_cases c att l c2 h,
    fun c fetch l c2 h => CN.get_cn_list_cases c fetch l c2 h, ?_, ?_, ?_⟩
  · intro c s1 s2
    unfold US.get_full_stock_list
    cases c with
    | missing =>
        by_cases hl : 3000 ≤ ((s1.getD [] ++ s2.getD []).dedup).length
        · right; simp [hl]
        · left; simp [hl]
    | unreadable =>
        by_cases hl : 3000 ≤ ((s1.getD [] ++ s2.getD []).dedup).length
        · right; simp [hl]
        · left; simp [hl]
    | readable sd data =>
        cases sd with
        | false =>
            by_cases hl : 3000 ≤ ((s1.getD [] ++ s2.getD []).dedup).length
            · right; simp [hl]
            · left; simp [hl]
        | true =>
            by_cases hc : 3000 ≤ data.length
            · left; simp [hc]
            · by_cases hl : 3000 ≤ ((s1.getD [] ++ s2.getD []).dedup).length
              · right; simp [hc, hl]
              · left; simp [hc, hl]
  · intro l t1 t2 hl
    unfold US.get_full_stock_list
    dsimp only
    rw [if_pos hl]
  · intro l att hl
    unfold HK.get_full_stock_list
    dsimp only
    rw [if_pos hl]
  · intro l fetch hl
    unfold CN.get_cn_list
    dsimp only
    rw [if_pos hl]

/-- Witness for C6's amended round-trip parts at concrete threshold-sized
caches in all three markets. -/
theorem claim_C6_witness :
    US.get_full_stock_list (.readable true (List.replicate 3000 "X")) none none
      = (List.replicate 3000 "X", .readable true (List.replicate 3000 "X"))
    ∧ HK.get_full_stock_list (.readable true (List.replicate 2000 "Y")) []
      = .ok (List.replicate 2000 "Y", .readable true (List.replicate 2000 "Y"))
    ∧ CN.get_cn_list (.readable true (List.replicate 4500 "Z")) none
      = .ok (List.replicate 4500 "Z", .readable true (List.replicate 4500 "Z")) :=
  ⟨claim_C6_amended.2.2.2.1 (List.replicate 3000 "X") none none
      (by rw [List.length_replicate]),
   claim_C6_amended.2.2.2.2.1 (List.replicate 2000 "Y") []
      (by rw [List.length_replicate]),
   claim_C6_amended.2.2.2.2.2 (List.replicate 4500 "Z") none
      (by rw [List.length_replicate])⟩

/-- C7: a job whose artifact exists and passes the freshness check — size
above 1000 bytes, and for the US market also age below 3600 seconds —
returns the terminal `"exists"` status with zero provider fetch calls (and
no sleeps at all) in the US, HK and CN downloaders. -/
theorem claim_C7 (item : String) (fi : FileInfo) (o1 o2 : FetchOutcome)
    (hamp : (splitAmp item).isSome = true) (hsize : 1000 < fi.size) :
    (fi.age < 3600 → US.download_stock_data item (some fi) o1 o2 = ⟨"exists", [], 0⟩)
    ∧ HK.download_stock_data item (some fi) o1 o2 = ⟨"exists", [], 0⟩
    ∧ CN.download_one_head item (some fi) = .ok (some ("exists", 0)) := by
  obtain ⟨pr, hpr⟩ := Option.isSome_iff_exists.mp hamp
  refine ⟨fun hage => ?_, ?_, ?_⟩
  · unfold US.download_stock_data US.jobBody
    rw [hpr]
    simp [hage, hsize]
  · unfold HK.download_stock_data HK.jobBody
    rw [hpr]
    simp [hsize]
  · unfold CN.download_one_head
    rw [hpr]
    simp [hsize]

/-- Witness for C7 at a concrete fresh artifact. -/
theorem claim_C7_witness :
    US.download_stock_data "AAA&Alpha" (some ⟨2000, 10⟩) (.raised "x") (.raised "y")
      = ⟨"exists", [], 0⟩
    ∧ HK.download_stock_data "AAA&Alpha" (some ⟨2000, 10⟩) (.raised "x") (.raised "y")
      = ⟨"exists", [], 0⟩
    ∧ CN.download_one_head "AAA&Alpha" (some ⟨2000, 10⟩) = .ok (some ("exists", 0)) := by
  have h := claim_C7 "AAA&Alpha" ⟨2000, 10⟩ (.raised "x") (.raised "y")
    (by decide) (by decide)
  exact ⟨h.1 (by decide), h.2.1, h.2.2⟩

/-- C8: with an empty resolved list both `main`s return the zero summary
`{total: 0, success: 0, fail: 0}` immediately, scheduling no jobs and
evaluating no completeness-ratio division; and whenever the
completeness-ratio division is evaluated, its denominator is positive, so
no division by zero occurs. -/
theorem claim_C8 (items : List String) (fileOf : String → Option FileInfo)
    (o1 o2 : String → FetchOutcome) :
    US.main [] fileOf o1 o2 = .ok ⟨⟨0, 0, 0⟩, 0, none⟩
    ∧ HK.main [] fileOf o1 o2 = .ok ⟨⟨0, 0, 0⟩, 0, none⟩
    ∧ (∀ t d, US.main items fileOf o1 o2 = .ok t → t.ratioDen = some d → 0 < d)
    ∧ (∀ t d, HK.main items fileOf o1 o2 = .ok t → t.ratioDen = some d → 0 < d) := by
  refine ⟨rfl, rfl, ?_, ?_⟩
  · intro t d ht hd
    obtain ⟨t1, h1, _, _, _, hr⟩ := US.us_main_ok items fileOf o1 o2
    rw [ht] at h1
    injection h1 with h1
    subst h1
    by_cases he : items.isEmpty
    · rw [if_pos he] at hr
      rw [hr] at hd
      cases hd
    · rw [if_neg he] at hr
      rw [hr] at hd
      injection hd with hd
      subst hd
      have : items ≠ [] := fun hnil => he (by rw [hnil]; rfl)
      exact List.length_pos.mpr this
  · intro t d ht hd
    obtain ⟨t1, h1, _, _, _, hr⟩ := HK.hk_main_ok items fileOf o1 o2
    rw [ht] at h1
    injection h1 with h1
    subst h1
    by_cases he : items.isEmpty
    · rw [if_pos he] at hr
      rw [hr] at hd
      cases hd
    · rw [if_neg he] at hr
      rw [hr] at hd
      injection hd with hd
      subst hd
      have : items ≠ [] := fun hnil => he (by rw [hnil]; rfl)
      exact List.length_pos.mpr this

/-- Witness for C8 at a concrete one-item run (the job ends `"empty"`, and
the ratio's denominator is the positive total 1). -/
theorem claim_C8_witness :
    (0 : Nat) < 1
    ∧ US.main [] (fun _ => none) (fun _ => .raised "x") (fun _ => .raised "x")
        = .ok ⟨⟨0, 0, 0⟩, 0, none⟩ := by
  have h := claim_C8 ["A&B"] (fun _ => none) (fun _ => FetchOutcome.raised "x")
    (fun _ => FetchOutcome.raised "x")
  exact ⟨h.2.2.1 ⟨⟨1, 0, 1⟩, 1, some 1⟩ 1 (by decide) rfl, h.1⟩

/-- C9: for every input string and every oracle the US/HK job functions
return a result (they are total at the boundary) whose status is one of
exactly `{"success", "exists", "empty", "error"}`, so the pool's
`stats[res.get("status", "error")] += 1` always hits an initialised
counter and the aggregation run returns a summary. -/
theorem claim_C9 (item : String) (file : Option FileInfo) (o1 o2 : FetchOutcome)
    (items : List String) (fl : String → Option FileInfo) (g1 g2 : String → FetchOutcome) :
    (US.download_stock_data item file o1 o2).status ∈ statusKeys
    ∧ (HK.download_stock_data item file o1 o2).status ∈ statusKeys
    ∧ (∃ t, US.main items fl g1 g2 = .ok t) := by
  obtain ⟨t, ht, _⟩ := US.us_main_ok items fl g1 g2
  exact ⟨US.us_download_stock_data_status_mem item file o1 o2,
    HK.hk_download_stock_data_status_mem item file o1 o2, t, ht⟩

/-- C10: `standardize_df` returns either an empty frame or a frame whose
columns are exactly `["date", "open", "high", "low", "close", "volume"]`
in that order with the date values made timezone-naive — no other shape. -/
theorem claim_C10 (df : Option DataFrame) :
    KR.standardize_df df = emptyDF
    ∨ ((KR.standardize_df df).cols = KR.reqCols
        ∧ (KR.standardize_df df).dateTzAware = false) := by
  cases df with
  | none => left; rfl
  | some d =>
      unfold KR.standardize_df
      dsimp only
      by_cases h1 : d.isEmptyDF = true
      · rw [if_pos h1]
        left
        rfl
      · rw [if_neg h1]
        by_cases h2 : "date" ∈ (d.idxName :: d.cols).map strToLower
        · rw [if_pos h2]
          by_cases h3 :
              (KR.reqCols.all fun c => decide (c ∈ (d.idxName :: d.cols).map strToLower)) = true
          · rw [if_pos h3]
            right
            exact ⟨rfl, rfl⟩
          · rw [if_neg h3]
            left
            rfl
        · rw [if_neg h2]
          left
          rfl
